import Mathlib

/-!
Shallow embedding of the gaming-venues directory query engine
(src/lib/database.ts, the ORM-subquery variant, plus the raw-SQL variant
used for one claim) and proofs about its filtering, counting, ordering and
derived-view behaviour.  Tables are lists of rows, SQL predicates are
boolean functions on rows, and each public service method is a pure
function of an explicit database value.
-/

namespace GamingVenues

/-- A row of the listings table (db/config.ts `Business`).  Columns that no
query-engine predicate, ordering or count ever reads (image url,
coordinates, maps url, SEO overrides, timestamps) are omitted from the
embedding; field defaults mirror the schema defaults. -/
structure Business where
  id : Nat
  cid : String := ""
  name : String := ""
  slug : String := ""
  rating : Rat := 0
  reviews_count : Nat := 0
  full_address : String := ""
  city : String := ""
  state : String := ""
  zip_code : String := ""
  phone : String := ""
  website : String := ""
  business_type : String := ""
  description : String := ""
  is_active : Bool := true
  featured : Bool := false
  verified : Bool := false
deriving DecidableEq

/-- A row of the categories table. -/
structure Category where
  id : Nat
  name : String := ""
  slug : String := ""
  is_active : Bool := true
deriving DecidableEq

/-- A row of the amenities table. -/
structure Amenity where
  id : Nat
  name : String := ""
  slug : String := ""
  category : String := "other"
  is_active : Bool := true
deriving DecidableEq

/-- A row of the regions table (no is_active column in the schema). -/
structure Region where
  id : Nat
  name : String := ""
  slug : String := ""
  state : String := ""
  country : String := "Australia"
deriving DecidableEq

/-- A row of the business_categories junction table.  The schema declares no
composite key, so duplicate rows are representable. -/
structure BusinessCategoryRow where
  business_id : Nat
  category_id : Nat
deriving DecidableEq

/-- A row of the business_amenities junction table. -/
structure BusinessAmenityRow where
  business_id : Nat
  amenity_id : Nat
deriving DecidableEq

/-- A row of the business_regions junction table. -/
structure BusinessRegionRow where
  business_id : Nat
  region_id : Nat
deriving DecidableEq

/-- The persisted relational state: the five base tables and the three
junction tables of db/config.ts. -/
structure DB where
  businesses : List Business := []
  categories : List Category := []
  amenities : List Amenity := []
  regions : List Region := []
  business_categories : List BusinessCategoryRow := []
  business_amenities : List BusinessAmenityRow := []
  business_regions : List BusinessRegionRow := []
deriving DecidableEq

/-- The all-optional filter specification (types.ts `BusinessFilters`). -/
structure BusinessFilters where
  categories : Option (List Nat) := none
  amenities : Option (List Nat) := none
  regions : Option (List Nat) := none
  city : Option String := none
  state : Option String := none
  rating_min : Option Rat := none
  featured_only : Bool := false
  verified_only : Bool := false
deriving DecidableEq

/-- Pagination parameters (types.ts `Pagination`); the queries read only
limit and offset. -/
structure Pagination where
  page : Nat := 1
  limit : Nat
  offset : Nat
deriving DecidableEq

/-- Substring occurrence on character lists: true iff pat occurs
contiguously inside the second list. -/
def likeSubstr (pat : List Char) : List Char → Bool
  | [] => pat.isEmpty
  | c :: rest => pat.isPrefixOf (c :: rest) || likeSubstr pat rest

/-- ASCII lower-casing of one character; SQLite LIKE folds exactly the
ASCII range. -/
def lowerChar (c : Char) : Char :=
  if 65 ≤ c.toNat && c.toNat ≤ 90 then Char.ofNat (c.toNat + 32) else c

/-- SQL LIKE with percent wildcards on both sides as the queries build it:
a case-insensitive substring test. -/
def likeMatch (hay pat : String) : Bool :=
  likeSubstr (pat.data.map lowerChar) (hay.data.map lowerChar)

namespace TursoDatabase

/-- The scalar WHERE conditions assembled by TursoDatabase.getBusinesses
(database.ts lines 59-86).  Each push is guarded by JavaScript truthiness,
so an absent field, an empty filter string and a zero rating floor all
leave the corresponding condition out. -/
def getBusinessesConds (filters : BusinessFilters) (b : Business) : Bool :=
  b.is_active &&
  (match filters.city with
   | none => true
   | some c => if c = "" then true else likeMatch b.city c) &&
  (match filters.state with
   | none => true
   | some s => if s = "" then true else likeMatch b.state s) &&
  (match filters.rating_min with
   | none => true
   | some r => if r = 0 then true else decide (r ≤ b.rating)) &&
  (if filters.featured_only then b.featured else true) &&
  (if filters.verified_only then b.verified else true)

/-- Listing ids holding membership in any of the supplied category ids:
the OR-of-equalities subquery over the junction table (database.ts
lines 92-99). -/
def categoryBusinessIds (d : DB) (ids : List Nat) : List Nat :=
  (d.business_categories.filter (fun row => ids.contains row.category_id)).map
    (fun row => row.business_id)

/-- Listing ids holding membership in any of the supplied amenity ids
(database.ts lines 102-107). -/
def amenityBusinessIds (d : DB) (ids : List Nat) : List Nat :=
  (d.business_amenities.filter (fun row => ids.contains row.amenity_id)).map
    (fun row => row.business_id)

/-- Listing ids holding membership in any of the supplied region ids
(database.ts lines 120-125). -/
def regionBusinessIds (d : DB) (ids : List Nat) : List Nat :=
  (d.business_regions.filter (fun row => ids.contains row.region_id)).map
    (fun row => row.business_id)

/-- The admissible-id set computed by the three sequential facet lookups
and intersections (database.ts lines 88-135): none when no non-empty facet
list was supplied.  The source returns [] early when an intermediate set
becomes empty; carrying the empty set forward instead is observationally
identical, because filtering an empty list leaves it empty and an empty
final set yields an empty page and a zero count below. -/
def resolveBusinessIds (d : DB) (filters : BusinessFilters) : Option (List Nat) :=
  let afterCategories : Option (List Nat) :=
    match filters.categories with
    | some cats =>
        if cats.length > 0 then some (categoryBusinessIds d cats) else none
    | none => none
  let afterAmenities : Option (List Nat) :=
    match filters.amenities with
    | some ams =>
        if ams.length > 0 then
          let amenityIds := amenityBusinessIds d ams
          match afterCategories with
          | some ids => some (ids.filter (fun i => amenityIds.contains i))
          | none => some amenityIds
        else afterCategories
    | none => afterCategories
  match filters.regions with
  | some regs =>
      if regs.length > 0 then
        let regionIds := regionBusinessIds d regs
        match afterAmenities with
        | some ids => some (ids.filter (fun i => regionIds.contains i))
        | none => some regionIds
      else afterAmenities
  | none => afterAmenities

/-- The id restriction added from the admissible-id set (database.ts lines
137-161): no condition when unset, id-in-set otherwise.  A supplied empty
set makes the condition always false, which matches the source returning
an empty result in that branch. -/
def idConds (businessIds : Option (List Nat)) (b : Business) : Bool :=
  match businessIds with
  | none => true
  | some ids => ids.contains b.id

/-- ORDER BY featured DESC, rating DESC (database.ts line 167) as a total
preorder on listing rows. -/
def businessOrder (a b : Business) : Prop :=
  (a.featured = true ∧ b.featured = false) ∨
    (a.featured = b.featured ∧ b.rating ≤ a.rating)

instance : DecidableRel businessOrder := fun a b => by
  unfold businessOrder; infer_instance

instance : IsTotal Business businessOrder := by
  constructor
  intro a b
  unfold businessOrder
  cases ha : a.featured <;> cases hb : b.featured <;>
    rcases le_total a.rating b.rating with h | h <;> simp_all

instance : IsTrans Business businessOrder := by
  constructor
  intro a b c hab hbc
  unfold businessOrder at *
  rcases hab with ⟨h1, h2⟩ | ⟨h1, h2⟩ <;> rcases hbc with ⟨h3, h4⟩ | ⟨h3, h4⟩
  · exact Or.inl ⟨h1, by simp_all⟩
  · exact Or.inl ⟨h1, h3 ▸ h2⟩
  · exact Or.inl ⟨h1.trans h3, h4⟩
  · exact Or.inr ⟨h1.trans h3, h4.trans h2⟩

/-- A paginated query result row: the listing plus its attached active
categories (types.ts `BusinessResult`). -/
structure BusinessResult extends Business where
  categories : List Category := []
deriving DecidableEq

/-- The per-listing category attachment: inner join of categories with the
junction, restricted to the listing id and to active categories
(database.ts lines 174-185). -/
def businessCategoriesOf (d : DB) (business_id : Nat) : List Category :=
  (d.categories.flatMap (fun c =>
    (d.business_categories.filter (fun row =>
      row.category_id == c.id && row.business_id == business_id)).map
      (fun _ => c))).filter (fun c => c.is_active)

/-- TursoDatabase.getBusinesses (database.ts lines 59-194): scalar
conditions and the admissible-id restriction applied conjunctively over
the listings table, ordered, paginated with OFFSET then LIMIT, and each
page row annotated with its active categories. -/
def getBusinesses (d : DB) (filters : BusinessFilters) (pagination : Pagination) :
    List BusinessResult :=
  let businessIds := resolveBusinessIds d filters
  let businessList :=
    ((List.insertionSort businessOrder
        (d.businesses.filter (fun b =>
          getBusinessesConds filters b && idConds businessIds b))).drop
      pagination.offset).take pagination.limit
  businessList.map (fun b =>
    { toBusiness := b, categories := businessCategoriesOf d b.id })

/-- The mandatory OR-group of searchBusinesses (database.ts lines 299-305):
the query as a case-insensitive substring of name, description, full
address, city or business type. -/
def searchGroup (query : String) (b : Business) : Bool :=
  likeMatch b.name query || likeMatch b.description query ||
  likeMatch b.full_address query || likeMatch b.city query ||
  likeMatch b.business_type query

/-- The WHERE conditions assembled by TursoDatabase.searchBusinesses
(database.ts lines 296-326).  The source pushes city, state, featured and
verified conditions but has no rating_min branch. -/
def searchConds (query : String) (filters : BusinessFilters) (b : Business) : Bool :=
  b.is_active &&
  searchGroup query b &&
  (match filters.city with
   | none => true
   | some c => if c = "" then true else likeMatch b.city c) &&
  (match filters.state with
   | none => true
   | some s => if s = "" then true else likeMatch b.state s) &&
  (if filters.featured_only then b.featured else true) &&
  (if filters.verified_only then b.verified else true)

/-- TursoDatabase.searchBusinesses (database.ts lines 293-430): identical
shape to getBusinesses with the search conditions in place of the scalar
conditions. -/
def searchBusinesses (d : DB) (query : String) (filters : BusinessFilters)
    (pagination : Pagination) : List BusinessResult :=
  let businessIds := resolveBusinessIds d filters
  let businessList :=
    ((List.insertionSort businessOrder
        (d.businesses.filter (fun b =>
          searchConds query filters b && idConds businessIds b))).drop
      pagination.offset).take pagination.limit
  businessList.map (fun b =>
    { toBusiness := b, categories := businessCategoriesOf d b.id })

/-- The WHERE conditions assembled by TursoDatabase.getBusinessCount
(database.ts lines 435-453).  The source pushes city, state, featured and
verified conditions but has no rating_min branch. -/
def getBusinessCountConds (filters : BusinessFilters) (b : Business) : Bool :=
  b.is_active &&
  (match filters.city with
   | none => true
   | some c => if c = "" then true else likeMatch b.city c) &&
  (match filters.state with
   | none => true
   | some s => if s = "" then true else likeMatch b.state s) &&
  (if filters.featured_only then b.featured else true) &&
  (if filters.verified_only then b.verified else true)

/-- TursoDatabase.getBusinessCount (database.ts lines 435-530): SELECT
COUNT over the listings table under the count conditions and the same
admissible-id restriction. -/
def getBusinessCount (d : DB) (filters : BusinessFilters) : Nat :=
  let businessIds := resolveBusinessIds d filters
  (d.businesses.filter (fun b =>
    getBusinessCountConds filters b && idConds businessIds b)).length

/-- TursoDatabase.getSearchCount (database.ts lines 535-641): SELECT COUNT
under the search conditions and the admissible-id restriction. -/
def getSearchCount (d : DB) (query : String) (filters : BusinessFilters) : Nat :=
  let businessIds := resolveBusinessIds d filters
  (d.businesses.filter (fun b =>
    searchConds query filters b && idConds businessIds b)).length

/-- A detail result: the listing plus its full category, amenity and
region fan-out (types.ts `BusinessDetail`). -/
structure BusinessDetail extends Business where
  categories : List Category := []
  amenities : List Amenity := []
  regions : List Region := []
deriving DecidableEq

/-- The per-listing amenity attachment, active amenities only
(database.ts lines 227-239). -/
def businessAmenitiesOf (d : DB) (business_id : Nat) : List Amenity :=
  (d.amenities.flatMap (fun a =>
    (d.business_amenities.filter (fun row =>
      row.amenity_id == a.id && row.business_id == business_id)).map
      (fun _ => a))).filter (fun a => a.is_active)

/-- The per-listing region attachment; the region join carries no
is_active condition (database.ts lines 242-251). -/
def businessRegionsOf (d : DB) (business_id : Nat) : List Region :=
  d.regions.flatMap (fun r =>
    (d.business_regions.filter (fun row =>
      row.region_id == r.id && row.business_id == business_id)).map
      (fun _ => r))

/-- TursoDatabase.getBusinessBySlug (database.ts lines 199-259): first
listing with the given slug and is_active = true (LIMIT 1), or none; on a
hit the three relation fan-outs are attached. -/
def getBusinessBySlug (d : DB) (slug : String) : Option BusinessDetail :=
  match (d.businesses.filter (fun b => b.slug == slug && b.is_active)).head? with
  | none => none
  | some business =>
      some { toBusiness := business
             categories := businessCategoriesOf d business.id
             amenities := businessAmenitiesOf d business.id
             regions := businessRegionsOf d business.id }

/-- A facet-catalog row annotated with its live membership count. -/
structure CategoryWithCount extends Category where
  business_count : Nat
deriving DecidableEq

/-- The value of count(business_categories.business_id) for one category in
getCategoriesWithCounts (database.ts lines 646-665): categories is
left-joined to the junction on category id, the junction is left-joined to
listings on listing id AND is_active, and COUNT counts the rows whose
junction listing-id is non-null.  A junction row therefore contributes
even when its listing is inactive or absent (the second left join then
merely yields null listing columns), and duplicate junction rows each
contribute; a category with no junction rows yields a single all-null row,
counted as zero. -/
def categoryRowCount (d : DB) (category_id : Nat) : Nat :=
  ((d.business_categories.filter (fun row => row.category_id == category_id)).map
    (fun row =>
      max 1 (d.businesses.filter (fun b =>
        b.id == row.business_id && b.is_active)).length)).sum

/-- Name order for the ORDER BY name clause of the facet catalog. -/
def categoryNameOrder (a b : Category) : Prop := a.name ≤ b.name

instance : DecidableRel categoryNameOrder := fun a b => by
  unfold categoryNameOrder; infer_instance

/-- TursoDatabase.getCategoriesWithCounts (database.ts lines 646-665):
active categories ordered by name, each annotated with the left-join
count. -/
def getCategoriesWithCounts (d : DB) : List CategoryWithCount :=
  (List.insertionSort categoryNameOrder (d.categories.filter (fun c => c.is_active))).map
    (fun c => { toCategory := c, business_count := categoryRowCount d c.id })

/-- One output row of getStatesWithCounts. -/
structure StateWithCounts where
  state : String
  business_count : Nat
  region_count : Nat
deriving DecidableEq

/-- GROUP BY state over active listings (database.ts lines 757-764): one
pair per distinct state value, carrying the group row count. -/
def businessStateGroups (d : DB) : List (String × Nat) :=
  (((d.businesses.filter (fun b => b.is_active)).map (fun b => b.state)).dedup).map
    (fun s => (s, ((d.businesses.filter (fun b => b.is_active)).map
      (fun b => b.state)).count s))

/-- GROUP BY state over all regions (database.ts lines 767-773). -/
def regionStateGroups (d : DB) : List (String × Nat) :=
  ((d.regions.map (fun r => r.state)).dedup).map
    (fun s => (s, (d.regions.map (fun r => r.state)).count s))

/-- One iteration of the merge loop of getStatesWithCounts (database.ts
lines 782-789): a region-count pair updates the region_count of an
existing map entry for its state, or inserts a fresh entry with
business_count zero. -/
def mergeStep (acc : List StateWithCounts) (p : String × Nat) : List StateWithCounts :=
  if acc.any (fun q => q.state == p.1) then
    acc.map (fun q =>
      if q.state == p.1 then
        { state := q.state, business_count := q.business_count, region_count := p.2 }
      else q)
  else acc ++ [{ state := p.1, business_count := 0, region_count := p.2 }]

/-- The merge loop over all region-count pairs, seeded with the
business-count entries (database.ts lines 776-789); a JavaScript Map in
insertion order is an association list with distinct keys. -/
def mergeStates (acc : List StateWithCounts) (rc : List (String × Nat)) :
    List StateWithCounts :=
  rc.foldl mergeStep acc

/-- State order for the final sort (database.ts line 794); localeCompare is
embedded as lexicographic string order. -/
def stateOrder (a b : StateWithCounts) : Prop := a.state ≤ b.state

instance : DecidableRel stateOrder := fun a b => by
  unfold stateOrder; infer_instance

/-- TursoDatabase.getStatesWithCounts (database.ts lines 755-795): the
two independent groupings merged by state name and sorted by state. -/
def getStatesWithCounts (d : DB) : List StateWithCounts :=
  List.insertionSort stateOrder
    (mergeStates
      ((businessStateGroups d).map (fun p =>
        { state := p.1, business_count := p.2, region_count := 0 }))
      (regionStateGroups d))

end TursoDatabase

namespace RealDatabase

/-- The scalar WHERE conditions of RealDatabase.getBusinesses (the raw-SQL
variant, lines 41-70): is_active, city/state LIKE, rating floor (guarded
by truthiness), featured and verified flags. -/
def realScalarConds (filters : BusinessFilters) (b : Business) : Bool :=
  b.is_active &&
  (match filters.city with
   | none => true
   | some c => if c = "" then true else likeMatch b.city c) &&
  (match filters.state with
   | none => true
   | some s => if s = "" then true else likeMatch b.state s) &&
  (match filters.rating_min with
   | none => true
   | some r => if r = 0 then true else decide (r ≤ b.rating)) &&
  (if filters.featured_only then b.featured else true) &&
  (if filters.verified_only then b.verified else true)

/-- RealDatabase.getBusinesses (raw-SQL variant, lines 40-131) without the
per-row category attachment: SELECT DISTINCT b.* with one INNER JOIN and
an IN-condition added per supplied non-empty facet list, then ORDER BY
featured DESC, rating DESC and LIMIT/OFFSET.  A listing row survives the
joins iff some junction row links it to one of the supplied ids, and
DISTINCT collapses equal listing rows, embedded as an exists-filter
followed by dedup. -/
def getBusinesses (d : DB) (filters : BusinessFilters) (pagination : Pagination) :
    List Business :=
  let rows := d.businesses.filter (fun b =>
    realScalarConds filters b &&
    (match filters.categories with
     | some cats =>
         if cats.length > 0 then
           d.business_categories.any (fun row =>
             row.business_id == b.id && cats.contains row.category_id)
         else true
     | none => true) &&
    (match filters.amenities with
     | some ams =>
         if ams.length > 0 then
           d.business_amenities.any (fun row =>
             row.business_id == b.id && ams.contains row.amenity_id)
         else true
     | none => true) &&
    (match filters.regions with
     | some regs =>
         if regs.length > 0 then
           d.business_regions.any (fun row =>
             row.business_id == b.id && regs.contains row.region_id)
         else true
     | none => true))
  ((List.insertionSort TursoDatabase.businessOrder rows.dedup).drop
    pagination.offset).take pagination.limit

end RealDatabase

open TursoDatabase

/-! Helper lemmas about the shared page pipeline
(filter, sort, OFFSET/LIMIT, annotate). -/

/-- Anything on a page satisfies the page predicate and comes from the
table. -/
theorem mem_page {cond : Business → Bool} {bs : List Business} {p : Pagination}
    {b : Business}
    (hb : b ∈ ((List.insertionSort businessOrder (bs.filter cond)).drop
      p.offset).take p.limit) :
    b ∈ bs ∧ cond b = true := by
  have h1 : b ∈ List.insertionSort businessOrder (bs.filter cond) :=
    List.drop_subset _ _ (List.take_subset _ _ hb)
  exact List.mem_filter.mp ((List.mem_insertionSort businessOrder).mp h1)

/-- With offset zero and a limit at least the table size, the page is the
whole sorted filtered table. -/
theorem page_eq_all {cond : Business → Bool} {bs : List Business} {p : Pagination}
    (hoff : p.offset = 0) (hlim : bs.length ≤ p.limit) :
    ((List.insertionSort businessOrder (bs.filter cond)).drop p.offset).take
        p.limit =
      List.insertionSort businessOrder (bs.filter cond) := by
  rw [hoff, List.drop_zero]
  apply List.take_of_length_le
  rw [List.length_insertionSort]
  exact le_trans (List.length_filter_le _ _) hlim

/-- Membership in a full page is membership-and-predicate. -/
theorem mem_page_iff {cond : Business → Bool} {bs : List Business} {p : Pagination}
    (hoff : p.offset = 0) (hlim : bs.length ≤ p.limit) (b : Business) :
    b ∈ ((List.insertionSort businessOrder (bs.filter cond)).drop
        p.offset).take p.limit ↔
      b ∈ bs ∧ cond b = true := by
  rw [page_eq_all hoff hlim, List.mem_insertionSort, List.mem_filter]

/-- Stripping the category annotation from a page. -/
theorem mem_map_toBusiness {d : DB} {page : List Business} {b : Business} :
    b ∈ (page.map (fun x =>
        ({ toBusiness := x, categories := businessCategoriesOf d x.id } :
          BusinessResult))).map (fun r => r.toBusiness) ↔
      b ∈ page := by
  rw [List.map_map]
  simp [Function.comp]

/-- The scalar conditions of getBusinesses start with the is_active
predicate. -/
theorem active_of_getBusinessesConds {f : BusinessFilters} {b : Business}
    (h : getBusinessesConds f b = true) : b.is_active = true := by
  cases hia : b.is_active
  · unfold getBusinessesConds at h; rw [hia] at h; simp at h
  · rfl

/-- The search conditions start with the is_active predicate. -/
theorem active_of_searchConds {q : String} {f : BusinessFilters} {b : Business}
    (h : searchConds q f b = true) : b.is_active = true := by
  cases hia : b.is_active
  · unfold searchConds at h; rw [hia] at h; simp at h
  · rfl

/-! Concrete datasets used to exercise the claims. -/

/-- One active listing rated 3. -/
def ratingDB : DB := { businesses := [{ id := 1, slug := "b1", rating := 3 }] }

/-- One active listing named alpha, rated 3. -/
def searchDB : DB := { businesses := [{ id := 1, name := "alpha", rating := 3 }] }

/-- One active category whose only membership row points at an inactive
listing. -/
def inactiveCatDB : DB :=
  { businesses := [{ id := 1, is_active := false }],
    categories := [{ id := 1, name := "cats" }],
    business_categories := [{ business_id := 1, category_id := 1 }] }

/-- C1: the aggregator does not apply the same predicates as the lister:
TursoDatabase.getBusinessCount (database.ts lines 435-530) never pushes a
rating condition, while getBusinesses does (lines 74-76).  On one active
listing rated 3 with filter rating_min = 4 the count is 1 while the full
first page is empty, so the mandated equality for a large enough page
fails. -/
theorem C1_count_omits_rating_min :
    getBusinessCount ratingDB { rating_min := some 4 } = 1 ∧
      getBusinesses ratingDB { rating_min := some 4 }
        { page := 1, limit := 10, offset := 0 } = [] := by
  decide

/-- C3: searchBusinesses (database.ts lines 293-430) pushes city, state,
featured and verified conditions but never a rating condition, so with
rating_min = 4 it still returns the matching listing rated 3, and
getSearchCount counts it. -/
theorem C3_search_omits_rating_min :
    (searchBusinesses searchDB "alpha" { rating_min := some 4 }
        { page := 1, limit := 10, offset := 0 }).map (fun r => r.toBusiness) =
      [{ id := 1, name := "alpha", rating := 3 }] ∧
    ({ id := 1, name := "alpha", rating := 3 } : Business).rating < 4 ∧
    getSearchCount searchDB "alpha" { rating_min := some 4 } = 1 := by
  decide

/-- C4: getCategoriesWithCounts counts junction rows, not distinct active
listings: on a category whose only membership row points at an inactive
listing it reports business_count 1 although the number of distinct active
member listings is 0. -/
theorem C4_count_includes_inactive :
    (getCategoriesWithCounts inactiveCatDB).map (fun c => (c.id, c.business_count)) =
      [(1, 1)] ∧
    ((inactiveCatDB.businesses.filter (fun b =>
        b.is_active && inactiveCatDB.business_categories.any (fun row =>
          row.business_id == b.id && row.category_id == 1))).map
      (fun b => b.id)).dedup.length = 0 := by
  decide

/-- C6: an explicitly empty facet list is skipped by the length-positive
guard exactly like an absent one, so results and counts agree for each of
the three facets, in the ORM variant and in the raw-SQL variant. -/
theorem C6_empty_facet_unconstrained (d : DB) (f : BusinessFilters) (p : Pagination) :
    (getBusinesses d { f with categories := some [] } p =
        getBusinesses d { f with categories := none } p ∧
      getBusinessCount d { f with categories := some [] } =
        getBusinessCount d { f with categories := none } ∧
      RealDatabase.getBusinesses d { f with categories := some [] } p =
        RealDatabase.getBusinesses d { f with categories := none } p) ∧
    (getBusinesses d { f with amenities := some [] } p =
        getBusinesses d { f with amenities := none } p ∧
      getBusinessCount d { f with amenities := some [] } =
        getBusinessCount d { f with amenities := none } ∧
      RealDatabase.getBusinesses d { f with amenities := some [] } p =
        RealDatabase.getBusinesses d { f with amenities := none } p) ∧
    (getBusinesses d { f with regions := some [] } p =
        getBusinesses d { f with regions := none } p ∧
      getBusinessCount d { f with regions := some [] } =
        getBusinessCount d { f with regions := none } ∧
      RealDatabase.getBusinesses d { f with regions := some [] } p =
        RealDatabase.getBusinesses d { f with regions := none } p) :=
  ⟨⟨rfl, rfl, rfl⟩, ⟨rfl, rfl, rfl⟩, ⟨rfl, rfl, rfl⟩⟩

/-- C10: a zero rating floor is falsy in the truthiness guard, so it adds
no rating condition: results and counts match the absent-field filter
exactly. -/
theorem C10_rating_zero_unconstrained (d : DB) (f : BusinessFilters) (p : Pagination) :
    getBusinesses d { f with rating_min := some 0 } p =
        getBusinesses d { f with rating_min := none } p ∧
      getBusinessCount d { f with rating_min := some 0 } =
        getBusinessCount d { f with rating_min := none } :=
  ⟨rfl, rfl⟩

/-- C2: every listing returned by getBusinesses, searchBusinesses or
getBusinessBySlug is active, and the two counts are unchanged when the
inactive listings are deleted from the table, so an inactive listing never
contributes to a result list, a detail result or a matching count. -/
theorem C2_active_only (d : DB) (filters : BusinessFilters) (query slug : String)
    (p : Pagination) :
    (∀ r ∈ getBusinesses d filters p, r.is_active = true) ∧
    (∀ r ∈ searchBusinesses d query filters p, r.is_active = true) ∧
    (∀ det, getBusinessBySlug d slug = some det → det.is_active = true) ∧
    getBusinessCount d filters =
      getBusinessCount
        { d with businesses := d.businesses.filter (fun b => b.is_active) } filters ∧
    getSearchCount d query filters =
      getSearchCount
        { d with businesses := d.businesses.filter (fun b => b.is_active) }
        query filters := by
  have hcount : ∀ cond : Business → Bool, (∀ b : Business, b.is_active = false → cond b = false) →
      (d.businesses.filter cond).length =
        ((d.businesses.filter (fun b => b.is_active)).filter cond).length := by
    intro cond hcond
    rw [List.filter_filter]
    apply congrArg
    apply List.filter_congr
    intro a _
    cases hia : a.is_active
    · rw [hcond a hia, Bool.and_false]
    · rw [Bool.and_true]
  refine ⟨?_, ?_, ?_, ?_, ?_⟩
  · intro r hr
    simp only [getBusinesses, List.mem_map] at hr
    obtain ⟨b, hb, rfl⟩ := hr
    have hc := (mem_page hb).2
    rw [Bool.and_eq_true] at hc
    exact active_of_getBusinessesConds hc.1
  · intro r hr
    simp only [searchBusinesses, List.mem_map] at hr
    obtain ⟨b, hb, rfl⟩ := hr
    have hc := (mem_page hb).2
    rw [Bool.and_eq_true] at hc
    exact active_of_searchConds hc.1
  · intro det hdet
    unfold getBusinessBySlug at hdet
    cases hh : (d.businesses.filter (fun b => b.slug == slug && b.is_active)).head? with
    | none => rw [hh] at hdet; simp at hdet
    | some business =>
        rw [hh] at hdet
        have hmem : business ∈ d.businesses.filter (fun b => b.slug == slug && b.is_active) :=
          List.mem_of_mem_head? (by rw [hh]; exact rfl)
        have hprop := (List.mem_filter.mp hmem).2
        rw [Bool.and_eq_true] at hprop
        have := Option.some.inj hdet
        rw [← this]
        exact hprop.2
  · exact hcount _ (fun b hb => by simp [getBusinessCountConds, hb])
  · exact hcount _ (fun b hb => by simp [searchConds, hb])

/-- One active listing. -/
def singleActiveDB : DB := { businesses := [{ id := 1 }] }

/-- Closed instance of C2 at a concrete dataset. -/
theorem C2_active_only_witness :
    ({ toBusiness := { id := 1 }, categories := [] } : BusinessResult).is_active = true :=
  (C2_active_only singleActiveDB {} "" "" { page := 1, limit := 10, offset := 0 }).1
    { toBusiness := { id := 1 }, categories := [] } (by decide)

/-- The membership subquery for categories: an id is admissible iff some
junction row links it to one of the supplied category ids. -/
theorem mem_categoryBusinessIds {d : DB} {ids : List Nat} {i : Nat} :
    i ∈ categoryBusinessIds d ids ↔
      ∃ row ∈ d.business_categories, row.category_id ∈ ids ∧ row.business_id = i := by
  unfold categoryBusinessIds
  simp only [List.mem_map, List.mem_filter, List.contains, List.elem_iff]
  constructor
  · rintro ⟨row, ⟨hmem, hcat⟩, hid⟩
    exact ⟨row, hmem, hcat, hid⟩
  · rintro ⟨row, hmem, hcat, hid⟩
    exact ⟨row, ⟨hmem, hcat⟩, hid⟩

/-- The membership subquery for amenities. -/
theorem mem_amenityBusinessIds {d : DB} {ids : List Nat} {i : Nat} :
    i ∈ amenityBusinessIds d ids ↔
      ∃ row ∈ d.business_amenities, row.amenity_id ∈ ids ∧ row.business_id = i := by
  unfold amenityBusinessIds
  simp only [List.mem_map, List.mem_filter, List.contains, List.elem_iff]
  constructor
  · rintro ⟨row, ⟨hmem, hcat⟩, hid⟩
    exact ⟨row, hmem, hcat, hid⟩
  · rintro ⟨row, hmem, hcat, hid⟩
    exact ⟨row, ⟨hmem, hcat⟩, hid⟩

/-- Resolving a filter that supplies non-empty category and amenity lists
yields the intersection of the two per-facet id sets. -/
theorem resolve_categories_amenities (d : DB) (cs as_ : List Nat)
    (hcs : cs ≠ []) (has_ : as_ ≠ []) :
    resolveBusinessIds d { categories := some cs, amenities := some as_ } =
      some ((categoryBusinessIds d cs).filter
        (fun i => (amenityBusinessIds d as_).contains i)) := by
  have h1 : cs.length > 0 := List.length_pos.mpr hcs
  have h2 : as_.length > 0 := List.length_pos.mpr has_
  unfold resolveBusinessIds
  simp [h1, h2]

/-- C5: with two supplied facet lists, a listing appears on a full first
page iff it is an active listing holding membership in at least one of the
supplied category ids and in at least one of the supplied amenity ids
(union inside a facet, intersection across facets). -/
theorem C5_facet_union_intersection (d : DB) (cs as_ : List Nat)
    (hcs : cs ≠ []) (has_ : as_ ≠ []) (p : Pagination) (hoff : p.offset = 0)
    (hlim : d.businesses.length ≤ p.limit) (b : Business) :
    b ∈ (getBusinesses d { categories := some cs, amenities := some as_ } p).map
        (fun r => r.toBusiness) ↔
      b ∈ d.businesses ∧ b.is_active = true ∧
        (∃ row ∈ d.business_categories, row.category_id ∈ cs ∧ row.business_id = b.id) ∧
        (∃ row ∈ d.business_amenities, row.amenity_id ∈ as_ ∧ row.business_id = b.id) := by
  simp only [getBusinesses]
  rw [mem_map_toBusiness, mem_page_iff hoff hlim,
    resolve_categories_amenities d cs as_ hcs has_]
  unfold getBusinessesConds idConds
  simp only [Bool.and_eq_true, Bool.and_true, List.contains, List.elem_iff,
    List.mem_filter, mem_categoryBusinessIds, mem_amenityBusinessIds]
  tauto

/-- The P2 scenario: listing 1 has category 1 and amenity 10, listing 2
category 1 and amenity 11, listing 3 category 3 and amenity 10. -/
def facetDB : DB :=
  { businesses := [{ id := 1 }, { id := 2 }, { id := 3 }],
    business_categories :=
      [{ business_id := 1, category_id := 1 },
        { business_id := 2, category_id := 1 },
        { business_id := 3, category_id := 3 }],
    business_amenities :=
      [{ business_id := 1, amenity_id := 10 },
        { business_id := 2, amenity_id := 11 },
        { business_id := 3, amenity_id := 10 }] }

/-- Closed instance of C5 on the P2 scenario. -/
theorem C5_facet_union_intersection_witness :
    ({ id := 1 } : Business) ∈
      (getBusinesses facetDB { categories := some [1, 2], amenities := some [10] }
        { page := 1, limit := 10, offset := 0 }).map (fun r => r.toBusiness) :=
  (C5_facet_union_intersection facetDB [1, 2] [10] (by decide) (by decide)
      { page := 1, limit := 10, offset := 0 } rfl (by decide) { id := 1 }).mpr
    (by decide)

/-- Every produced page is pairwise ordered by the featured-then-rating
preorder: sortedness survives OFFSET/LIMIT (a sublist) and the category
annotation (a map that keeps the listing). -/
theorem pairwise_page (cond : Business → Bool) (bs : List Business) (p : Pagination)
    (d : DB) :
    ((((List.insertionSort businessOrder (bs.filter cond)).drop p.offset).take
        p.limit).map (fun b =>
          ({ toBusiness := b, categories := businessCategoriesOf d b.id } :
            BusinessResult))).Pairwise
      (fun a b : BusinessResult => businessOrder a.toBusiness b.toBusiness) := by
  apply List.pairwise_map.mpr
  have hs : (List.insertionSort businessOrder (bs.filter cond)).Pairwise businessOrder :=
    List.sorted_insertionSort businessOrder _
  exact hs.sublist ((List.take_sublist _ _).trans (List.drop_sublist _ _))

/-- C7: in any list returned by getBusinesses or searchBusinesses, an
earlier entry beats a later one on featured (descending) or ties on
featured and is at least as highly rated. -/
theorem C7_result_ordering (d : DB) (filters : BusinessFilters) (query : String)
    (p : Pagination) (R S : List BusinessResult)
    (hR : R = getBusinesses d filters p)
    (hS : S = searchBusinesses d query filters p)
    (i j : Nat) (hij : i < j) :
    (∀ hj : j < R.length,
        (R.get ⟨i, Nat.lt_trans hij hj⟩).featured > (R.get ⟨j, hj⟩).featured ∨
          ((R.get ⟨i, Nat.lt_trans hij hj⟩).featured = (R.get ⟨j, hj⟩).featured ∧
            (R.get ⟨j, hj⟩).rating ≤ (R.get ⟨i, Nat.lt_trans hij hj⟩).rating)) ∧
    (∀ hj : j < S.length,
        (S.get ⟨i, Nat.lt_trans hij hj⟩).featured > (S.get ⟨j, hj⟩).featured ∨
          ((S.get ⟨i, Nat.lt_trans hij hj⟩).featured = (S.get ⟨j, hj⟩).featured ∧
            (S.get ⟨j, hj⟩).rating ≤ (S.get ⟨i, Nat.lt_trans hij hj⟩).rating)) := by
  subst hR hS
  constructor <;> intro hj
  · have hpw := pairwise_page (fun b =>
      getBusinessesConds filters b && idConds (resolveBusinessIds d filters) b)
      d.businesses p d
    have hrel := List.pairwise_iff_get.mp hpw ⟨i, Nat.lt_trans hij hj⟩ ⟨j, hj⟩ hij
    rcases hrel with ⟨h1, h2⟩ | ⟨h1, h2⟩
    · left
      have h1x : ((getBusinesses d filters p).get ⟨i, Nat.lt_trans hij hj⟩).featured
          = true := h1
      have h2x : ((getBusinesses d filters p).get ⟨j, hj⟩).featured = false := h2
      rw [h1x, h2x]; decide
    · right; exact ⟨h1, h2⟩
  · have hpw := pairwise_page (fun b =>
      searchConds query filters b && idConds (resolveBusinessIds d filters) b)
      d.businesses p d
    have hrel := List.pairwise_iff_get.mp hpw ⟨i, Nat.lt_trans hij hj⟩ ⟨j, hj⟩ hij
    rcases hrel with ⟨h1, h2⟩ | ⟨h1, h2⟩
    · left
      have h1x : ((searchBusinesses d query filters p).get
          ⟨i, Nat.lt_trans hij hj⟩).featured = true := h1
      have h2x : ((searchBusinesses d query filters p).get ⟨j, hj⟩).featured
          = false := h2
      rw [h1x, h2x]; decide
    · right; exact ⟨h1, h2⟩

/-- Three active listings out of order: the page must come back featured
first, then by descending rating. -/
def orderedDB : DB :=
  { businesses := [{ id := 1, rating := 2 },
      { id := 2, rating := 5, featured := true }, { id := 3, rating := 4 }] }

/-- Closed instance of C7 at positions 0 and 1 of a concrete page. -/
theorem C7_result_ordering_witness :
    ((getBusinesses orderedDB {} { page := 1, limit := 10, offset := 0 }).get
        ⟨0, by decide⟩).featured >
      ((getBusinesses orderedDB {} { page := 1, limit := 10, offset := 0 }).get
        ⟨1, by decide⟩).featured ∨
    (((getBusinesses orderedDB {} { page := 1, limit := 10, offset := 0 }).get
        ⟨0, by decide⟩).featured =
      ((getBusinesses orderedDB {} { page := 1, limit := 10, offset := 0 }).get
        ⟨1, by decide⟩).featured ∧
      ((getBusinesses orderedDB {} { page := 1, limit := 10, offset := 0 }).get
        ⟨1, by decide⟩).rating ≤
      ((getBusinesses orderedDB {} { page := 1, limit := 10, offset := 0 }).get
        ⟨0, by decide⟩).rating) :=
  (C7_result_ordering orderedDB {} "" { page := 1, limit := 10, offset := 0 } _ _
    rfl rfl 0 1 (by decide)).1 (by decide)

/-- C8: when slugs are unique across the listings table (the schema treats
slug as a unique human-readable key), looking an active listing up by its
own slug returns a detail value with its id, and a slug carried by no
active listing returns none. -/
theorem C8_slug_round_trip (d : DB)
    (hslugs : (d.businesses.map (fun b => b.slug)).Nodup) :
    (∀ L ∈ d.businesses, L.is_active = true →
      (getBusinessBySlug d L.slug).map (fun det => det.id) = some L.id) ∧
    (∀ s : String, (∀ L ∈ d.businesses, L.is_active = true → L.slug ≠ s) →
      getBusinessBySlug d s = none) := by
  constructor
  · intro L hL hact
    unfold getBusinessBySlug
    cases hh : (d.businesses.filter (fun b => b.slug == L.slug && b.is_active)).head? with
    | none =>
        exfalso
        have hmem : L ∈ d.businesses.filter (fun b => b.slug == L.slug && b.is_active) :=
          List.mem_filter.mpr ⟨hL, by simp [hact]⟩
        rw [List.head?_eq_none_iff] at hh
        rw [hh] at hmem
        exact absurd hmem (List.not_mem_nil L)
    | some M =>
        have hMmem : M ∈ d.businesses.filter (fun b => b.slug == L.slug && b.is_active) :=
          List.mem_of_mem_head? (by rw [hh]; exact rfl)
        have hMf := List.mem_filter.mp hMmem
        have hMprop := hMf.2
        rw [Bool.and_eq_true, beq_iff_eq] at hMprop
        have hML : M = L :=
          List.inj_on_of_nodup_map hslugs hMf.1 hL hMprop.1
        simp [hML]
  · intro s hs
    have hnil : d.businesses.filter (fun b => b.slug == s && b.is_active) = [] := by
      apply List.filter_eq_nil_iff.mpr
      intro a ha
      intro hcontra
      rw [Bool.and_eq_true, beq_iff_eq] at hcontra
      exact hs a ha hcontra.2 hcontra.1
    unfold getBusinessBySlug
    rw [hnil]
    rfl

/-- Two listings, one inactive, with distinct slugs. -/
def slugDB : DB :=
  { businesses := [{ id := 1, slug := "first" },
      { id := 2, slug := "second", is_active := false }] }

/-- Closed instance of C8: the active listing round-trips through its
slug. -/
theorem C8_slug_round_trip_witness :
    (getBusinessBySlug slugDB "first").map (fun det => det.id) = some 1 :=
  (C8_slug_round_trip slugDB (by decide)).1 { id := 1, slug := "first" }
    (by decide) (by decide)

/-! Lemmas about the state-merge loop of getStatesWithCounts. -/

/-- The update inside mergeStep never changes the state field. -/
theorem mergeStep_update_state (p : String × Nat) (q : StateWithCounts) :
    ((if q.state == p.1 then
        { state := q.state, business_count := q.business_count, region_count := p.2 }
      else q) : StateWithCounts).state = q.state := by
  split <;> rfl

/-- Filtering on a state after a state-preserving map commutes with the
map. -/
theorem filter_state_map (acc : List StateWithCounts)
    (f : StateWithCounts → StateWithCounts) (hf : ∀ q, (f q).state = q.state)
    (s : String) :
    (acc.map f).filter (fun q => q.state == s) =
      (acc.filter (fun q => q.state == s)).map f := by
  induction acc with
  | nil => rfl
  | cons q t ih =>
      rw [List.map_cons, List.filter_cons, List.filter_cons]
      have hpred : ((f q).state == s) = (q.state == s) := by rw [hf]
      cases hqs : (q.state == s) with
      | false => simp [hpred, hqs, ih]
      | true => simp [hpred, hqs, ih]

/-- A merge step keyed on another state leaves the entries for s alone. -/
theorem filter_mergeStep_ne (acc : List StateWithCounts) (p : String × Nat)
    (s : String) (h : p.1 ≠ s) :
    (mergeStep acc p).filter (fun q => q.state == s) =
      acc.filter (fun q => q.state == s) := by
  unfold mergeStep
  split
  · rw [filter_state_map acc _ (mergeStep_update_state p) s]
    have hid : ∀ a ∈ acc.filter (fun q => q.state == s),
        (if a.state == p.1 then
          ({ state := a.state, business_count := a.business_count,
             region_count := p.2 } : StateWithCounts)
        else a) = a := by
      intro a ha
      have has : a.state = s := beq_iff_eq.mp (List.mem_filter.mp ha).2
      rw [if_neg]
      rw [has, beq_iff_eq]
      exact fun hc => h hc.symm
    rw [List.map_congr_left hid]
    exact List.map_id _
  · rw [List.filter_append]
    have hne : (({ state := p.1, business_count := 0, region_count := p.2 } :
        StateWithCounts).state == s) = false := by
      rw [beq_eq_false_iff_ne]
      exact h
    simp [List.filter, hne]

/-- A merge step keyed on s, when s already has exactly one entry, keeps
that entry and overwrites its region count. -/
theorem filter_mergeStep_found (acc : List StateWithCounts) (s : String) (n : Nat)
    (e : StateWithCounts)
    (hacc : acc.filter (fun q => q.state == s) = [e]) :
    (mergeStep acc (s, n)).filter (fun q => q.state == s) =
      [{ state := e.state, business_count := e.business_count, region_count := n }] := by
  have hemem : e ∈ acc.filter (fun q => q.state == s) := by
    rw [hacc]; exact List.mem_singleton.mpr rfl
  have hes : e.state = s := beq_iff_eq.mp (List.mem_filter.mp hemem).2
  have hany : acc.any (fun q => q.state == s) = true :=
    List.any_eq_true.mpr ⟨e, (List.mem_filter.mp hemem).1, (List.mem_filter.mp hemem).2⟩
  unfold mergeStep
  rw [if_pos hany]
  rw [filter_state_map acc _ (mergeStep_update_state (s, n)) s]
  rw [hacc]
  simp [hes]

/-- A merge step keyed on s, when s has no entry yet, appends the fresh
entry with business count zero. -/
theorem filter_mergeStep_missing (acc : List StateWithCounts) (s : String) (n : Nat)
    (hacc : acc.filter (fun q => q.state == s) = []) :
    (mergeStep acc (s, n)).filter (fun q => q.state == s) =
      [{ state := s, business_count := 0, region_count := n }] := by
  have hnone : ∀ a ∈ acc, ¬((fun q => q.state == s) a = true) :=
    List.filter_eq_nil_iff.mp hacc
  have hany : acc.any (fun q => q.state == s) = false := by
    rw [← Bool.not_eq_true, List.any_eq_true]
    rintro ⟨a, ha, hpa⟩
    exact hnone a ha hpa
  unfold mergeStep
  rw [if_neg (by rw [hany]; exact Bool.false_ne_true)]
  rw [List.filter_append, hacc]
  simp [List.filter]

/-- Folding merge steps none of which is keyed on s leaves the entries
for s alone. -/
theorem mergeStates_filter_of_not_mem (rc : List (String × Nat))
    (acc : List StateWithCounts) (s : String) (h : ∀ p ∈ rc, p.1 ≠ s) :
    (mergeStates acc rc).filter (fun q => q.state == s) =
      acc.filter (fun q => q.state == s) := by
  induction rc generalizing acc with
  | nil => rfl
  | cons p rest ih =>
      rw [show mergeStates acc (p :: rest) = mergeStates (mergeStep acc p) rest from rfl]
      rw [ih (mergeStep acc p) (fun q hq => h q (List.mem_cons_of_mem _ hq))]
      exact filter_mergeStep_ne acc p s (h p (List.mem_cons_self _ _))

/-- Folding the merge over region counts with distinct keys, one of which
is (s, n), onto an accumulator holding exactly one entry for s: the final
entries for s are that entry with region count n. -/
theorem mergeStates_filter_found (rc : List (String × Nat))
    (acc : List StateWithCounts) (s : String) (n : Nat) (e : StateWithCounts)
    (hnd : (rc.map Prod.fst).Nodup) (hin : (s, n) ∈ rc)
    (hacc : acc.filter (fun q => q.state == s) = [e]) :
    (mergeStates acc rc).filter (fun q => q.state == s) =
      [{ state := e.state, business_count := e.business_count, region_count := n }] := by
  induction rc generalizing acc e with
  | nil => cases hin
  | cons p rest ih =>
      rw [show mergeStates acc (p :: rest) = mergeStates (mergeStep acc p) rest from rfl]
      rw [List.map_cons, List.nodup_cons] at hnd
      by_cases hp : p.1 = s
      · have hrest : ∀ q ∈ rest, q.1 ≠ s := by
          intro q hq hqs
          apply hnd.1
          rw [← hp] at hqs
          rw [← hqs]
          exact List.mem_map_of_mem Prod.fst hq
        have hpn : p = (s, n) := by
          rcases List.mem_cons.mp hin with hh | hh
          · exact hh.symm
          · exact absurd rfl (hrest _ hh)
        subst hpn
        rw [mergeStates_filter_of_not_mem rest _ s hrest]
        exact filter_mergeStep_found acc s n e hacc
      · have hin2 : (s, n) ∈ rest := by
          rcases List.mem_cons.mp hin with hh | hh
          · exact absurd (by rw [← hh]) hp
          · exact hh
        exact ih (mergeStep acc p) e hnd.2 hin2
          (by rw [filter_mergeStep_ne acc p s hp]; exact hacc)

/-- Folding the merge over region counts with distinct keys, one of which
is (s, n), onto an accumulator with no entry for s: the final entries for
s are the single fresh entry with business count zero. -/
theorem mergeStates_filter_new (rc : List (String × Nat))
    (acc : List StateWithCounts) (s : String) (n : Nat)
    (hnd : (rc.map Prod.fst).Nodup) (hin : (s, n) ∈ rc)
    (hacc : acc.filter (fun q => q.state == s) = []) :
    (mergeStates acc rc).filter (fun q => q.state == s) =
      [{ state := s, business_count := 0, region_count := n }] := by
  induction rc generalizing acc with
  | nil => cases hin
  | cons p rest ih =>
      rw [show mergeStates acc (p :: rest) = mergeStates (mergeStep acc p) rest from rfl]
      rw [List.map_cons, List.nodup_cons] at hnd
      by_cases hp : p.1 = s
      · have hrest : ∀ q ∈ rest, q.1 ≠ s := by
          intro q hq hqs
          apply hnd.1
          rw [← hp] at hqs
          rw [← hqs]
          exact List.mem_map_of_mem Prod.fst hq
        have hpn : p = (s, n) := by
          rcases List.mem_cons.mp hin with hh | hh
          · exact hh.symm
          · exact absurd rfl (hrest _ hh)
        subst hpn
        rw [mergeStates_filter_of_not_mem rest _ s hrest]
        exact filter_mergeStep_missing acc s n hacc
      · have hin2 : (s, n) ∈ rest := by
          rcases List.mem_cons.mp hin with hh | hh
          · exact absurd (by rw [← hh]) hp
          · exact hh
        exact ih (mergeStep acc p) hnd.2 hin2
          (by rw [filter_mergeStep_ne acc p s hp]; exact hacc)

/-- Filtering a keyed map over distinct keys picks out exactly the image
of the key, or nothing. -/
theorem filter_keyed_map (ks : List String) (hnd : ks.Nodup)
    (g : String → StateWithCounts) (hg : ∀ k, (g k).state = k) (s : String) :
    (ks.map g).filter (fun q => q.state == s) = if s ∈ ks then [g s] else [] := by
  induction ks with
  | nil => simp
  | cons k t ih =>
      rw [List.nodup_cons] at hnd
      rw [List.map_cons, List.filter_cons]
      by_cases hk : k = s
      · subst hk
        rw [if_pos (by rw [hg, beq_iff_eq])]
        rw [ih hnd.2]
        rw [if_neg hnd.1, if_pos (List.mem_cons_self _ _)]
      · rw [if_neg (by rw [hg]; simp [hk])]
        rw [ih hnd.2]
        by_cases hst : s ∈ t
        · rw [if_pos hst, if_pos (List.mem_cons_of_mem _ hst)]
        · rw [if_neg hst, if_neg (by
            rw [List.mem_cons]
            rintro (hh | hh)
            · exact hk hh.symm
            · exact hst hh)]

/-- The grouped business count for a state is the number of active
listings carrying it. -/
theorem count_state_businesses (d : DB) (s : String) :
    ((d.businesses.filter (fun b => b.is_active)).map (fun b => b.state)).count s =
      (d.businesses.filter (fun b => b.is_active && b.state == s)).length := by
  rw [List.count, List.countP_map, List.countP_filter, List.countP_eq_length_filter]
  apply congrArg
  apply List.filter_congr
  intro a _
  simp [Function.comp, Bool.and_comm]

/-- The grouped region count for a state is the number of regions carrying
it. -/
theorem count_state_regions (d : DB) (s : String) :
    (d.regions.map (fun r => r.state)).count s =
      (d.regions.filter (fun r => r.state == s)).length := by
  rw [List.count, List.countP_map, List.countP_eq_length_filter]
  rfl

/-- C9: every state occurring among active listings or among regions
appears exactly once in getStatesWithCounts, carrying the number of active
listings with that state and the number of regions with that state; a
state present on only one side keeps the other count at zero. -/
theorem C9_states_merged (d : DB) (s : String)
    (hs : (∃ b ∈ d.businesses, b.is_active = true ∧ b.state = s) ∨
      ∃ r ∈ d.regions, r.state = s) :
    (getStatesWithCounts d).filter (fun e => e.state == s) =
      [{ state := s,
         business_count :=
           (d.businesses.filter (fun b => b.is_active && b.state == s)).length,
         region_count := (d.regions.filter (fun r => r.state == s)).length }] := by
  classical
  have hinit : ((businessStateGroups d).map (fun p =>
      ({ state := p.1, business_count := p.2, region_count := 0 } :
        StateWithCounts))).filter (fun q => q.state == s) =
      if s ∈ ((d.businesses.filter (fun b => b.is_active)).map
          (fun b => b.state)).dedup
      then [{ state := s,
              business_count := ((d.businesses.filter (fun b => b.is_active)).map
                (fun b => b.state)).count s,
              region_count := 0 }]
      else [] := by
    unfold businessStateGroups
    rw [List.map_map]
    exact filter_keyed_map _ (List.nodup_dedup _) _ (fun k => rfl) s
  have hrckeys : (regionStateGroups d).map Prod.fst =
      (d.regions.map (fun r => r.state)).dedup := by
    unfold regionStateGroups
    rw [List.map_map]
    exact List.map_id _
  have hndrc : ((regionStateGroups d).map Prod.fst).Nodup := by
    rw [hrckeys]; exact List.nodup_dedup _
  have key : (mergeStates ((businessStateGroups d).map (fun p =>
      ({ state := p.1, business_count := p.2, region_count := 0 } :
        StateWithCounts))) (regionStateGroups d)).filter (fun q => q.state == s) =
      [{ state := s,
         business_count := ((d.businesses.filter (fun b => b.is_active)).map
           (fun b => b.state)).count s,
         region_count := (d.regions.map (fun r => r.state)).count s }] := by
    by_cases hb : s ∈ (d.businesses.filter (fun b => b.is_active)).map
        (fun b => b.state)
    · have hinitb := hinit
      rw [if_pos (List.mem_dedup.mpr hb)] at hinitb
      by_cases hr : s ∈ d.regions.map (fun r => r.state)
      · have hrc : (s, (d.regions.map (fun r => r.state)).count s) ∈
            regionStateGroups d := by
          unfold regionStateGroups
          exact List.mem_map_of_mem _ (List.mem_dedup.mpr hr)
        exact mergeStates_filter_found _ _ s _ _ hndrc hrc hinitb
      · have hnone : ∀ p ∈ regionStateGroups d, p.1 ≠ s := by
          intro p hp hps
          apply hr
          have hkey : p.1 ∈ (regionStateGroups d).map Prod.fst :=
            List.mem_map_of_mem _ hp
          rw [hrckeys] at hkey
          rw [← hps]
          exact List.mem_dedup.mp hkey
        rw [mergeStates_filter_of_not_mem _ _ s hnone, hinitb]
        rw [List.count_eq_zero.mpr hr]
    · have hinitb := hinit
      rw [if_neg (fun hc => hb (List.mem_dedup.mp hc))] at hinitb
      have hr : s ∈ d.regions.map (fun r => r.state) := by
        rcases hs with ⟨b, hbmem, hact, hstate⟩ | ⟨r, hrmem, hstate⟩
        · exact absurd (List.mem_map.mpr
            ⟨b, List.mem_filter.mpr ⟨hbmem, hact⟩, hstate⟩) hb
        · exact List.mem_map.mpr ⟨r, hrmem, hstate⟩
      have hrc : (s, (d.regions.map (fun r => r.state)).count s) ∈
          regionStateGroups d := by
        unfold regionStateGroups
        exact List.mem_map_of_mem _ (List.mem_dedup.mpr hr)
      rw [mergeStates_filter_new _ _ s _ hndrc hrc hinitb]
      rw [List.count_eq_zero.mpr hb]
  have hperm : List.Perm ((getStatesWithCounts d).filter (fun e => e.state == s))
      ((mergeStates ((businessStateGroups d).map (fun p =>
        ({ state := p.1, business_count := p.2, region_count := 0 } :
          StateWithCounts))) (regionStateGroups d)).filter
        (fun e => e.state == s)) := by
    unfold getStatesWithCounts
    exact (List.perm_insertionSort stateOrder _).filter _
  rw [key] at hperm
  rw [List.perm_singleton.mp hperm]
  rw [count_state_businesses, count_state_regions]

/-- Two active listings in one state, no region for it; two regions in a
second state with no listing. -/
def statesDB : DB :=
  { businesses := [{ id := 1, state := "nv" }, { id := 2, state := "nv" }],
    regions := [{ id := 1, state := "ca" }, { id := 2, state := "ca" }] }

/-- Closed instance of C9: the listing-only state keeps a zero region
count. -/
theorem C9_states_merged_witness :
    (getStatesWithCounts statesDB).filter (fun e => e.state == "nv") =
      [{ state := "nv", business_count := 2, region_count := 0 }] :=
  C9_states_merged statesDB "nv"
    (Or.inl ⟨{ id := 1, state := "nv" }, by decide, by decide, by decide⟩)

end GamingVenues
